import Mathlib

/-!
Verification development for the PDF combiner in `src/combine_pdfs.py`.

The Python program is shallowly embedded as follows.

* Python strings (filenames) are `List Char`; Python string comparison is
  code-point lexicographic order (`lexLe`), `str.lower` is `lowerName`, and
  `str.endswith` is `endsWithL`.
* `glob.glob(os.path.join(folder, "*.pdf"))` on a POSIX system matches the
  entries of the folder whose names end in the case-sensitive suffix `.pdf`,
  except that the wildcard `*` never matches a leading dot, so names that
  begin with `.` (hidden files) are excluded.  `sorted` is a stable
  lexicographic sort, embedded with `List.insertionSort`.
* A source file on disk is a `SrcFile`: its basename, the heights of its
  page images (a page is modelled by the pixel height of its rasterisation,
  which is the only page datum the program transforms), and three flags
  describing which external libraries succeed on this file:
  `readOk`  — `PyPDF2.PdfReader` can parse the original bytes;
  `plumbOk` — the `pdfplumber`/PIL rasterise–crop–re-encode pipeline of
              `remove_watermark_region` runs without raising;
  `cvOk`    — the extra `cv2` colour-space conversions of
              `remove_watermark_opencv` run without raising.
* Python's `int(h * 0.15)` and `int(h * 0.85)` are modelled exactly as the
  rational floors `h * 15 / 100` and `h * 85 / 100` in `Nat`.
* Fallible operations return `Option`/`Except`; an `Except.error` result of
  `combine_pdfs` means the run aborted with no output file written.
-/

namespace CombinePdfs

/-- Filenames are Python strings, modelled as lists of characters. -/
abbrev FileName := List Char

/-- The four characters of the literal `'.pdf'`. -/
def pdfSuffix : FileName := ['.', 'p', 'd', 'f']

/-- Python string comparison: code-point lexicographic order.  `sorted` in
`get_pdf_files` orders filenames by this relation. -/
def lexLe : List Char → List Char → Bool
  | [], _ => true
  | _ :: _, [] => false
  | a :: as, b :: bs =>
    if a.toNat < b.toNat then true
    else if b.toNat < a.toNat then false
    else lexLe as bs

/-- Python `s.lower()` on a filename (character-wise lowering). -/
def lowerName (s : List Char) : List Char := s.map Char.toLower

/-- Python `s.endswith(suf)`: `suf` is a suffix of `s`. -/
def endsWithL (s suf : List Char) : Bool := decide (suf <:+ s)

/-- Behaviour of `glob.glob(folder + "/*.pdf")` on one directory entry
(POSIX): the name must end in the case-sensitive suffix `.pdf`, and the
leading character must not be a dot, because the glob wildcard `*` does not
match hidden files. -/
def globPdfMatch (n : FileName) : Bool :=
  (match n with
    | '.' :: _ => false
    | _ => true) && endsWithL n pdfSuffix

/-- Width and height of a raster image (PIL `img.size`). -/
structure ImgSize where
  width : Nat
  height : Nat
deriving DecidableEq, Repr

/-- Line 72: `crop_bottom = int(img_height * (bottom_height_percent / 100))`,
with the float product modelled as an exact rational floor. -/
def cropBottomPx (p h : Nat) : Nat := h * p / 100

/-- Line 75: `pil_img.crop((0, 0, img_width, img_height - crop_bottom))` —
pixel geometry of the fixed-fraction crop of `remove_watermark_region`. -/
def cropRegionImg (p : Nat) (s : ImgSize) : ImgSize :=
  ⟨s.width, s.height - cropBottomPx p s.height⟩

/-- Height kept by the fixed-fraction crop at percentage `p`. -/
def keptHeightRegion (p h : Nat) : Nat := h - cropBottomPx p h

/-- Line 128: `crop_height = int(height * 0.85)` — height kept by the
pixel-domain (opencv) crop of `remove_watermark_opencv`, with the float
product modelled as an exact rational floor. -/
def keptHeightOpencv (h : Nat) : Nat := h * 85 / 100

/-- Lines 192–194: `if not output_filename.lower().endswith('.pdf'):
output_filename += '.pdf'`. -/
def ensure_pdf (s : List Char) : List Char :=
  if endsWithL (lowerName s) pdfSuffix then s else s ++ pdfSuffix

/-- Lowering the characters of `'.pdf'` is the identity. -/
theorem lowerName_pdfSuffix : lowerName pdfSuffix = pdfSuffix := by decide

/-- Lowering distributes over appending the `.pdf` suffix. -/
theorem lowerName_append_pdfSuffix (s : List Char) :
    lowerName (s ++ pdfSuffix) = lowerName s ++ pdfSuffix := by
  unfold lowerName
  rw [List.map_append]
  exact congrArg _ lowerName_pdfSuffix

/-- A list extended with `.pdf` ends with `.pdf`. -/
theorem endsWithL_append_pdfSuffix (s : List Char) :
    endsWithL (s ++ pdfSuffix) pdfSuffix = true :=
  decide_eq_true (List.suffix_append s pdfSuffix)

/-- A directory entry as the program observes it: its basename, the pixel
heights of its rasterised pages, and which external libraries succeed on it
(see the module comment). -/
structure SrcFile where
  name : FileName
  pages : List Nat
  readOk : Bool
  plumbOk : Bool
  cvOk : Bool
deriving DecidableEq, Repr

/-- Lines 32–44: `glob.glob(folder + "/*.pdf")` followed by `sorted(...)`.
All candidate paths share the folder prefix, so sorting the joined paths
orders them by basename; `sorted` is stable lexicographic sort. -/
def get_pdf_files (dir : List SrcFile) : List SrcFile :=
  List.insertionSort (fun a b => lexLe a.name b.name = true)
    (dir.filter fun f => globPdfMatch f.name)

/-- Lines 59–98, `remove_watermark_region`: when the `pdfplumber`/PIL
pipeline succeeds, the temp file receives one page per source page, each
cropped to the top `100 - 15` percent (`some` of the cropped heights);
when any step raises, the handler at lines 93–98 copies the original bytes
over the temp file (`none`, meaning the temp holds the unmodified
original). -/
def remove_watermark_region (f : SrcFile) : Option (List Nat) :=
  if f.plumbOk then some (f.pages.map (keptHeightRegion 15)) else none

/-- Lines 101–160, `remove_watermark_opencv`: when both the rasterisation
and the cv2 conversions succeed, the temp file receives one page per source
page cropped to the top 85 percent; when any step raises, the handler at
lines 157–160 falls back to `remove_watermark_region`. -/
def remove_watermark_opencv (f : SrcFile) : Option (List Nat) :=
  if f.plumbOk && f.cvOk then some (f.pages.map keptHeightOpencv)
  else remove_watermark_region f

/-- Watermark-removal method selected on the command line (line 163). -/
inductive WMethod
  | crop
  | opencv
deriving DecidableEq, Repr

/-- Lines 212–215: dispatch of the selected watermark method; the content
written to the per-file temp file. -/
def tempOut : WMethod → SrcFile → Option (List Nat)
  | .crop, f => remove_watermark_region f
  | .opencv, f => remove_watermark_opencv f

/-- Line 217: `PdfReader(processed_file)` on the temp file.  Content that a
watermark routine wrote through `PdfWriter` parses back; a byte-copy of the
original (`none`) parses exactly when the original does (`readOk`). -/
def readBack (f : SrcFile) : Option (List Nat) → Option (List Nat)
  | some ps => some ps
  | none => if f.readOk then some f.pages else none

/-- Line 210: the temp filename `temp_<basename>` in the script directory. -/
def tempName (n : FileName) : FileName := ['t', 'e', 'm', 'p', '_'] ++ n

/-- Pages that the loop body (lines 204–234) appends to the output for one
source file: with watermark removal, whatever `PdfReader` recovers from the
temp file; without, the original pages when `PdfReader` succeeds on them.
A `PdfReader` failure is caught at line 232 and contributes nothing. -/
def contrib (rmw : Bool) (m : WMethod) (f : SrcFile) : List Nat :=
  if rmw then (readBack f (tempOut m f)).getD []
  else if f.readOk then f.pages else []

/-- Whether the loop body reads this file successfully (no exception
reaches the handler at line 232). -/
def fileRead (rmw : Bool) (m : WMethod) (f : SrcFile) : Bool :=
  if rmw then (readBack f (tempOut m f)).isSome else f.readOk

/-- Temp files still on disk after processing one source file: `os.remove`
at line 221 runs only when `PdfReader(processed_file)` at line 217 returned
normally; when it raises, control jumps to line 232 and the temp file is
left behind. -/
def leak (rmw : Bool) (m : WMethod) (f : SrcFile) : List FileName :=
  if rmw && (readBack f (tempOut m f)).isNone then [tempName f.name] else []

/-- Accumulator of the processing loop: the pages so far in the
`PdfWriter`, and the temp files left on disk so far. -/
structure RunState where
  out : List Nat
  disk : List FileName
deriving DecidableEq, Repr

/-- One iteration of the loop at lines 204–234. -/
def processOne (rmw : Bool) (m : WMethod) (s : RunState) (f : SrcFile) : RunState :=
  ⟨s.out ++ contrib rmw m f, s.disk ++ leak rmw m f⟩

/-- Fatal errors of `combine_pdfs`: the `ValueError` raised at line 181
when the source folder holds no PDF files. -/
inductive CombineError
  | noInput
deriving DecidableEq, Repr

/-- Observable outcome of a successful run: the final output filename, the
pages of the written output document, and the temp files left on disk. -/
structure CombineResult where
  outName : FileName
  pages : List Nat
  leaked : List FileName
deriving DecidableEq, Repr

/-- Lines 163–243, `combine_pdfs`, for a caller-supplied output name:
collect and sort the PDF files, abort with `ValueError` when there are
none (before any processing and before any output is created), enforce the
`.pdf` suffix on the output name, run the processing loop, and write the
accumulated pages once at the end. -/
def combine_pdfs (dir : List SrcFile) (outputFilename : List Char)
    (removeWatermarks : Bool) (watermarkMethod : WMethod) :
    Except CombineError CombineResult :=
  let files := get_pdf_files dir
  if files.isEmpty then .error .noInput
  else
    let s := files.foldl (processOne removeWatermarks watermarkMethod) ⟨[], []⟩
    .ok ⟨ensure_pdf outputFilename, s.out, s.disk⟩

/-- The processing loop appends, per file in order, its contribution to the
output and its leaked temp files. -/
theorem foldl_processOne (rmw : Bool) (m : WMethod) :
    ∀ (fs : List SrcFile) (o : List Nat) (d : List FileName),
      fs.foldl (processOne rmw m) ⟨o, d⟩ =
        ⟨o ++ (fs.map (contrib rmw m)).flatten,
         d ++ (fs.map (leak rmw m)).flatten⟩ := by
  intro fs
  induction fs with
  | nil => intro o d; simp
  | cons f fs ih =>
    intro o d
    simp only [List.foldl_cons, processOne, ih, List.map_cons, List.flatten_cons,
      List.append_assoc]

/-- Code-point lexicographic order is total. -/
theorem lexLe_total : ∀ a b : List Char, lexLe a b = true ∨ lexLe b a = true := by
  intro a
  induction a with
  | nil => intro b; left; rfl
  | cons x xs ih =>
    intro b
    cases b with
    | nil => right; rfl
    | cons y ys =>
      simp only [lexLe]
      rcases Nat.lt_trichotomy x.toNat y.toNat with h | h | h
      · left; simp [h]
      · have hxy : ¬ x.toNat < y.toNat := by omega
        have hyx : ¬ y.toNat < x.toNat := by omega
        rcases ih ys with h2 | h2
        · left; simp [hxy, hyx, h2]
        · right; simp [hxy, hyx, h2]
      · right; simp [h]

/-- Code-point lexicographic order is transitive. -/
theorem lexLe_trans : ∀ a b c : List Char,
    lexLe a b = true → lexLe b c = true → lexLe a c = true := by
  intro a
  induction a with
  | nil => intro b c _ _; rfl
  | cons x xs ih =>
    intro b c hab hbc
    cases b with
    | nil => simp [lexLe] at hab
    | cons y ys =>
      cases c with
      | nil => simp [lexLe] at hbc
      | cons z zs =>
        simp only [lexLe] at hab hbc ⊢
        by_cases h1 : x.toNat < y.toNat <;> by_cases h2 : y.toNat < z.toNat
        · simp [show x.toNat < z.toNat by omega]
        · simp only [h2, if_false, if_true, h1] at hbc ⊢
          by_cases h3 : z.toNat < y.toNat
          · simp [h3] at hbc
          · have : x.toNat < z.toNat := by omega
            simp [this]
        · simp only [h1, if_false, if_true] at hab ⊢
          by_cases h3 : y.toNat < x.toNat
          · simp [h3] at hab
          · have : x.toNat < z.toNat := by omega
            simp [this]
        · simp only [h1, if_false] at hab ⊢
          by_cases h3 : y.toNat < x.toNat
          · simp [h3] at hab
          · simp only [if_neg h3, if_true] at hab
            simp only [h2, if_false] at hbc
            by_cases h4 : z.toNat < y.toNat
            · simp [h4] at hbc
            · simp only [if_neg h4, if_true] at hbc
              have hxz : ¬ x.toNat < z.toNat := by omega
              have hzx : ¬ z.toNat < x.toNat := by omega
              simp [hxz, hzx, ih ys zs hab hbc]

/-- With watermark removal off, a readable file contributes exactly its
own pages, in order. -/
theorem contrib_no_watermark (m : WMethod) (f : SrcFile) (h : f.readOk = true) :
    contrib false m f = f.pages := by
  simp [contrib, h]

/-- A run with at least one collected PDF file writes the output once, with
the per-file contributions concatenated in collection order. -/
theorem combine_pdfs_run (dir : List SrcFile) (n : List Char) (rmw : Bool)
    (m : WMethod) (hne : get_pdf_files dir ≠ []) :
    combine_pdfs dir n rmw m =
      .ok ⟨ensure_pdf n, ((get_pdf_files dir).map (contrib rmw m)).flatten,
           ((get_pdf_files dir).map (leak rmw m)).flatten⟩ := by
  have hfalse : (get_pdf_files dir).isEmpty = false := by
    cases hgf : get_pdf_files dir with
    | nil => exact absurd hgf hne
    | cons a l => rfl
  unfold combine_pdfs
  simp only [hfalse, Bool.false_eq_true, if_false, foldl_processOne,
    List.nil_append]

/-- Reading back a temp file written by the fixed-fraction routine recovers
one page per source page. -/
theorem readBack_region_length (f : SrcFile) (ps : List Nat)
    (h : readBack f (remove_watermark_region f) = some ps) :
    ps.length = f.pages.length := by
  unfold remove_watermark_region at h
  by_cases hp : f.plumbOk = true
  · rw [if_pos hp] at h
    simp only [readBack, Option.some.injEq] at h
    rw [← h, List.length_map]
  · rw [if_neg hp] at h
    simp only [readBack] at h
    by_cases hr : f.readOk = true
    · rw [if_pos hr] at h
      simp only [Option.some.injEq] at h
      rw [← h]
    · rw [if_neg hr] at h
      cases h

/-- Reading back the temp file of either watermark method recovers one page
per source page. -/
theorem readBack_length (m : WMethod) (f : SrcFile) (ps : List Nat)
    (h : readBack f (tempOut m f) = some ps) : ps.length = f.pages.length := by
  cases m with
  | crop => exact readBack_region_length f ps h
  | opencv =>
    simp only [tempOut, remove_watermark_opencv] at h
    by_cases hc : (f.plumbOk && f.cvOk) = true
    · rw [if_pos hc] at h
      simp only [readBack, Option.some.injEq] at h
      rw [← h, List.length_map]
    · rw [if_neg hc] at h
      exact readBack_region_length f ps h

/-- A file the loop body reads successfully contributes one output page per
source page. -/
theorem contrib_length (rmw : Bool) (m : WMethod) (f : SrcFile)
    (h : fileRead rmw m f = true) :
    (contrib rmw m f).length = f.pages.length := by
  cases rmw with
  | false =>
    simp only [fileRead, if_false, Bool.false_eq_true] at h
    simp [contrib, h]
  | true =>
    simp only [fileRead, if_true] at h
    obtain ⟨ps, hps⟩ := Option.isSome_iff_exists.1 h
    simp only [contrib, if_true, hps, Option.getD_some]
    exact readBack_length m f ps hps

/-- A file whose processing raises contributes no page at all: the whole
file is skipped, never partially included. -/
theorem contrib_skip (rmw : Bool) (m : WMethod) (f : SrcFile)
    (h : fileRead rmw m f = false) : contrib rmw m f = [] := by
  cases rmw with
  | false =>
    simp only [fileRead, if_false, Bool.false_eq_true] at h
    simp [contrib, h]
  | true =>
    simp only [fileRead, if_true] at h
    have hnone : readBack f (tempOut m f) = none := by
      cases hv : readBack f (tempOut m f)
      · rfl
      · rw [hv] at h; cases h
    simp [contrib, hnone]

/-- C1: with all PDF files of the directory opening successfully and
`remove_watermarks=false`, the output page sequence is the concatenation of
each source file's pages with files taken in ascending lexicographic order
of filename (the processed list is sorted by `lexLe` on names and is a
permutation of the directory's glob matches) and pages within a file kept
in original order. -/
theorem claim_C1_ordering (dir : List SrcFile) (n : List Char) (m : WMethod)
    (hne : get_pdf_files dir ≠ [])
    (hall : ∀ f ∈ get_pdf_files dir, f.readOk = true) :
    ∃ r, combine_pdfs dir n false m = .ok r ∧
      r.pages = ((get_pdf_files dir).map SrcFile.pages).flatten ∧
      List.Pairwise (fun a b : SrcFile => lexLe a.name b.name = true)
        (get_pdf_files dir) ∧
      (get_pdf_files dir).Perm (dir.filter fun f => globPdfMatch f.name) := by
  have hfalse : (get_pdf_files dir).isEmpty = false := by
    cases hgf : get_pdf_files dir with
    | nil => exact absurd hgf hne
    | cons a l => rfl
  have hcomb : combine_pdfs dir n false m =
      .ok ⟨ensure_pdf n, ((get_pdf_files dir).map (contrib false m)).flatten,
           ((get_pdf_files dir).map (leak false m)).flatten⟩ := by
    unfold combine_pdfs
    simp only [hfalse, Bool.false_eq_true, if_false, foldl_processOne,
      List.nil_append]
  refine ⟨_, hcomb, ?_, ?_, ?_⟩
  · show ((get_pdf_files dir).map (contrib false m)).flatten =
      ((get_pdf_files dir).map SrcFile.pages).flatten
    have : (get_pdf_files dir).map (contrib false m) =
        (get_pdf_files dir).map SrcFile.pages :=
      List.map_congr_left fun f hf => contrib_no_watermark m f (hall f hf)
    rw [this]
  · haveI ht : IsTotal SrcFile (fun a b => lexLe a.name b.name = true) :=
      ⟨fun a b => lexLe_total a.name b.name⟩
    haveI htr : IsTrans SrcFile (fun a b => lexLe a.name b.name = true) :=
      ⟨fun a b c => lexLe_trans a.name b.name c.name⟩
    exact List.sorted_insertionSort _ _
  · exact List.perm_insertionSort _ _

/-- Witness for C1 on a concrete two-file directory. -/
theorem claim_C1_ordering_witness :
    ∃ r, combine_pdfs
        [⟨['b', '.', 'p', 'd', 'f'], [5, 6], true, true, true⟩,
         ⟨['a', '.', 'p', 'd', 'f'], [3], true, true, true⟩]
        ['o', 'u', 't'] false .crop = .ok r ∧
      r.pages = ((get_pdf_files
        [⟨['b', '.', 'p', 'd', 'f'], [5, 6], true, true, true⟩,
         ⟨['a', '.', 'p', 'd', 'f'], [3], true, true, true⟩]).map
          SrcFile.pages).flatten ∧
      List.Pairwise (fun a b : SrcFile => lexLe a.name b.name = true)
        (get_pdf_files
          [⟨['b', '.', 'p', 'd', 'f'], [5, 6], true, true, true⟩,
           ⟨['a', '.', 'p', 'd', 'f'], [3], true, true, true⟩]) ∧
      (get_pdf_files
        [⟨['b', '.', 'p', 'd', 'f'], [5, 6], true, true, true⟩,
         ⟨['a', '.', 'p', 'd', 'f'], [3], true, true, true⟩]).Perm
        ([⟨['b', '.', 'p', 'd', 'f'], [5, 6], true, true, true⟩,
          ⟨['a', '.', 'p', 'd', 'f'], [3], true, true, true⟩].filter
            fun f => globPdfMatch f.name) :=
  claim_C1_ordering _ _ .crop (by decide) (by decide)

/-- C3: the fixed-fraction crop at percentage `p` with `0 < p < 100` maps
an image of width `w` and height `h ≥ 1` to one of the same width and of
height `h - h * p / 100`, which is positive and at most `h`; no input in
this range yields a zero-height page, so the rejection clause is vacuously
respected. -/
theorem claim_C3_crop_invariant (p w h : Nat)
    (hp0 : 0 < p) (hp1 : p < 100) (hh : 1 ≤ h) :
    cropRegionImg p ⟨w, h⟩ = ⟨w, h - h * p / 100⟩ ∧
    0 < (cropRegionImg p ⟨w, h⟩).height ∧
    (cropRegionImg p ⟨w, h⟩).height ≤ h := by
  have hlt : h * p < h * 100 := mul_lt_mul_of_pos_left hp1 hh
  have hdiv : h * p / 100 < h := (Nat.div_lt_iff_lt_mul (by norm_num)).2 hlt
  refine ⟨rfl, ?_, ?_⟩
  · show 0 < h - cropBottomPx p h
    unfold cropBottomPx
    omega
  · exact Nat.sub_le _ _

/-- Witness for C3 at `p = 15`, a 100 by 40 image. -/
theorem claim_C3_crop_invariant_witness :
    cropRegionImg 15 ⟨100, 40⟩ = ⟨100, 40 - 40 * 15 / 100⟩ ∧
    0 < (cropRegionImg 15 ⟨100, 40⟩).height ∧
    (cropRegionImg 15 ⟨100, 40⟩).height ≤ 40 :=
  claim_C3_crop_invariant 15 100 40 (by decide) (by decide) (by decide)

/-- C4 fails as stated: at height 10 the opencv strategy keeps
`int(10 * 0.85) = 8` rows while the fixed-fraction strategy keeps
`10 - int(10 * 0.15) = 9` rows. -/
theorem claim_C4_cex :
    keptHeightOpencv 10 = 8 ∧ keptHeightRegion 15 10 = 9 ∧
    ¬ keptHeightOpencv 10 = keptHeightRegion 15 10 := by decide

/-- C4 amended: the opencv kept height `floor(h * 85 / 100)` is one row
shorter than the fixed-fraction kept height `h - floor(h * 15 / 100)`
unless `h * 15` is a multiple of 100; the two agree exactly when `h` is a
multiple of 20. -/
theorem claim_C4_strategies (h : Nat) :
    keptHeightOpencv h + (if h * 15 % 100 = 0 then 0 else 1) =
      keptHeightRegion 15 h ∧
    (keptHeightOpencv h = keptHeightRegion 15 h ↔ h % 20 = 0) := by
  unfold keptHeightOpencv keptHeightRegion cropBottomPx
  constructor
  · split_ifs with h0 <;> omega
  · omega

/-- Witness for the amended C4 at heights 10 and 20. -/
theorem claim_C4_strategies_witness :
    (keptHeightOpencv 10 + (if 10 * 15 % 100 = 0 then 0 else 1) =
      keptHeightRegion 15 10 ∧
    (keptHeightOpencv 10 = keptHeightRegion 15 10 ↔ 10 % 20 = 0)) ∧
    (keptHeightOpencv 20 + (if 20 * 15 % 100 = 0 then 0 else 1) =
      keptHeightRegion 15 20 ∧
    (keptHeightOpencv 20 = keptHeightRegion 15 20 ↔ 20 % 20 = 0)) :=
  ⟨claim_C4_strategies 10, claim_C4_strategies 20⟩

/-- C6: the output-name rule always yields a name ending in `.pdf`
case-insensitively; a name already ending so is unchanged, any other name
gets exactly one `.pdf` appended, and the rule is idempotent. -/
theorem claim_C6_idempotent_naming (s : List Char) :
    endsWithL (lowerName (ensure_pdf s)) pdfSuffix = true ∧
    (endsWithL (lowerName s) pdfSuffix = true → ensure_pdf s = s) ∧
    (endsWithL (lowerName s) pdfSuffix = false → ensure_pdf s = s ++ pdfSuffix) ∧
    ensure_pdf (ensure_pdf s) = ensure_pdf s := by
  by_cases hc : endsWithL (lowerName s) pdfSuffix = true
  · have he : ensure_pdf s = s := by simp [ensure_pdf, hc]
    refine ⟨?_, fun _ => he, ?_, ?_⟩
    · rw [he]; exact hc
    · intro hf; rw [hc] at hf; cases hf
    · rw [he, he]
  · have hc2 : endsWithL (lowerName s) pdfSuffix = false := by
      cases hb : endsWithL (lowerName s) pdfSuffix
      · rfl
      · exact absurd hb hc
    have he : ensure_pdf s = s ++ pdfSuffix := by simp [ensure_pdf, hc2]
    have hEnds : endsWithL (lowerName (s ++ pdfSuffix)) pdfSuffix = true := by
      rw [lowerName_append_pdfSuffix]
      exact endsWithL_append_pdfSuffix _
    refine ⟨?_, fun ht => absurd ht hc, fun _ => he, ?_⟩
    · rw [he]; exact hEnds
    · rw [he]; simp [ensure_pdf, hEnds]

/-- Witness for C6: a bare name gets `.pdf` appended, a `.PDF` name is kept. -/
theorem claim_C6_idempotent_naming_witness :
    ensure_pdf ['d', 'o', 'c'] = ['d', 'o', 'c'] ++ pdfSuffix ∧
    ensure_pdf ['d', '.', 'P', 'D', 'F'] = ['d', '.', 'P', 'D', 'F'] :=
  ⟨(claim_C6_idempotent_naming ['d', 'o', 'c']).2.2.1 (by decide),
   (claim_C6_idempotent_naming ['d', '.', 'P', 'D', 'F']).2.1 (by decide)⟩

/-- C10: at the default 15 percent, heights 1 through 6 lose zero rows
(`int(h * 0.15) = 0`) and pass through unchanged, and every positive
height keeps a positive cropped height. -/
theorem claim_C10_small_heights :
    (∀ h, 1 ≤ h → h ≤ 6 → cropBottomPx 15 h = 0 ∧ keptHeightRegion 15 h = h) ∧
    (∀ h, 1 ≤ h → 0 < keptHeightRegion 15 h) := by
  constructor
  · intro h h1 h6
    unfold keptHeightRegion cropBottomPx
    omega
  · intro h h1
    unfold keptHeightRegion cropBottomPx
    omega

/-- Witness for C10 at heights 4 and 123. -/
theorem claim_C10_small_heights_witness :
    (cropBottomPx 15 4 = 0 ∧ keptHeightRegion 15 4 = 4) ∧
    0 < keptHeightRegion 15 123 :=
  ⟨claim_C10_small_heights.1 4 (by decide) (by decide),
   claim_C10_small_heights.2 123 (by decide)⟩

/-- C2: on any run with at least one collected file, the output page count
is the sum, over the files the loop body read successfully, of their page
counts; the output is the concatenation of per-file contributions, and a
file whose processing raises contributes the empty list (skipped whole,
never partially included, never retried). -/
theorem claim_C2_page_count (dir : List SrcFile) (n : List Char)
    (rmw : Bool) (m : WMethod) (hne : get_pdf_files dir ≠ []) :
    ∃ r, combine_pdfs dir n rmw m = .ok r ∧
      r.pages = ((get_pdf_files dir).map (contrib rmw m)).flatten ∧
      r.pages.length = ((get_pdf_files dir).map
        (fun f => if fileRead rmw m f then f.pages.length else 0)).sum ∧
      ∀ f, fileRead rmw m f = false → contrib rmw m f = [] := by
  refine ⟨_, combine_pdfs_run dir n rmw m hne, rfl, ?_, contrib_skip rmw m⟩
  show (((get_pdf_files dir).map (contrib rmw m)).flatten).length = _
  rw [List.length_flatten, List.map_map]
  congr 1
  apply List.map_congr_left
  intro f _
  by_cases hf : fileRead rmw m f = true
  · simp only [Function.comp_apply, hf, if_true]
    exact contrib_length rmw m f hf
  · have hf2 : fileRead rmw m f = false := by
      cases hv : fileRead rmw m f
      · rfl
      · exact absurd hv hf
    simp only [Function.comp_apply, hf2, Bool.false_eq_true, if_false]
    rw [contrib_skip rmw m f hf2]
    rfl

/-- Witness for C2: one healthy file and one unreadable file, with
watermark removal on. -/
theorem claim_C2_page_count_witness :
    ∃ r, combine_pdfs
        [⟨['a', '.', 'p', 'd', 'f'], [10, 20], true, true, true⟩,
         ⟨['b', '.', 'p', 'd', 'f'], [7], false, false, false⟩]
        ['o', 'u', 't'] true .crop = .ok r ∧
      r.pages = ((get_pdf_files
        [⟨['a', '.', 'p', 'd', 'f'], [10, 20], true, true, true⟩,
         ⟨['b', '.', 'p', 'd', 'f'], [7], false, false, false⟩]).map
          (contrib true .crop)).flatten ∧
      r.pages.length = ((get_pdf_files
        [⟨['a', '.', 'p', 'd', 'f'], [10, 20], true, true, true⟩,
         ⟨['b', '.', 'p', 'd', 'f'], [7], false, false, false⟩]).map
          (fun f => if fileRead true .crop f then f.pages.length else 0)).sum ∧
      ∀ f, fileRead true .crop f = false → contrib true .crop f = [] :=
  claim_C2_page_count _ _ true .crop (by decide)

/-- C5 fails as stated: on a file that the opencv strategy cannot decode
(`plumbOk = false`, `cvOk = false`) and that the page reader cannot parse
either (`readOk = false`), the fallback chain ends in a byte-copy that
`PdfReader` rejects, the per-file handler skips the file, and its page
silently vanishes from the output. -/
theorem claim_C5_cex :
    ((⟨['b', 'a', 'd', '.', 'p', 'd', 'f'], [100], false, false, false⟩ :
        SrcFile).plumbOk &&
      (⟨['b', 'a', 'd', '.', 'p', 'd', 'f'], [100], false, false, false⟩ :
        SrcFile).cvOk) = false ∧
    (⟨['b', 'a', 'd', '.', 'p', 'd', 'f'], [100], false, false, false⟩ :
        SrcFile).pages ≠ [] ∧
    combine_pdfs
      [⟨['b', 'a', 'd', '.', 'p', 'd', 'f'], [100], false, false, false⟩]
      ['o', 'u', 't'] true .opencv =
      .ok ⟨['o', 'u', 't', '.', 'p', 'd', 'f'], [],
           [['t', 'e', 'm', 'p', '_', 'b', 'a', 'd', '.', 'p', 'd', 'f']]⟩ := by
  refine ⟨rfl, by decide, ?_⟩
  rfl

/-- C5 amended: when the opencv strategy fails on a file, that file's pages
still all appear in the output — cropped by the fixed-fraction fallback
when the rasterisation pipeline works, else passed through unmodified —
provided the original can be parsed by the page reader at all; one output
page per source page. -/
theorem claim_C5_fallback (dir : List SrcFile) (n : List Char) (f : SrcFile)
    (hmem : f ∈ get_pdf_files dir)
    (hcv : (f.plumbOk && f.cvOk) = false)
    (hread : (f.plumbOk || f.readOk) = true) :
    ∃ r, combine_pdfs dir n true .opencv = .ok r ∧
      r.pages = ((get_pdf_files dir).map (contrib true .opencv)).flatten ∧
      contrib true .opencv f =
        (if f.plumbOk then f.pages.map (keptHeightRegion 15) else f.pages) ∧
      (contrib true .opencv f).length = f.pages.length := by
  have hne : get_pdf_files dir ≠ [] := by
    intro hnil
    rw [hnil] at hmem
    cases hmem
  have hcontrib : contrib true .opencv f =
      (if f.plumbOk then f.pages.map (keptHeightRegion 15) else f.pages) := by
    simp only [contrib, if_true, tempOut, remove_watermark_opencv, hcv,
      Bool.false_eq_true, if_false, remove_watermark_region]
    by_cases hp : f.plumbOk = true
    · simp [hp, readBack]
    · have hp2 : f.plumbOk = false := by
        cases hv : f.plumbOk
        · rfl
        · exact absurd hv hp
      have hr : f.readOk = true := by
        rw [hp2] at hread
        simpa using hread
      simp [hp2, readBack, hr]
  refine ⟨_, combine_pdfs_run dir n true .opencv hne, rfl, hcontrib, ?_⟩
  rw [hcontrib]
  by_cases hp : f.plumbOk = true <;> simp [hp]

/-- Witness for the amended C5: opencv and the rasterisation pipeline both
fail, the original parses, and the single page passes through. -/
theorem claim_C5_fallback_witness :
    ∃ r, combine_pdfs
        [⟨['a', '.', 'p', 'd', 'f'], [50], true, false, false⟩]
        ['o', 'u', 't'] true .opencv = .ok r ∧
      r.pages = ((get_pdf_files
        [⟨['a', '.', 'p', 'd', 'f'], [50], true, false, false⟩]).map
          (contrib true .opencv)).flatten ∧
      contrib true .opencv
          (⟨['a', '.', 'p', 'd', 'f'], [50], true, false, false⟩ : SrcFile) =
        (if (⟨['a', '.', 'p', 'd', 'f'], [50], true, false, false⟩ :
            SrcFile).plumbOk
         then (⟨['a', '.', 'p', 'd', 'f'], [50], true, false, false⟩ :
            SrcFile).pages.map (keptHeightRegion 15)
         else (⟨['a', '.', 'p', 'd', 'f'], [50], true, false, false⟩ :
            SrcFile).pages) ∧
      (contrib true .opencv
          (⟨['a', '.', 'p', 'd', 'f'], [50], true, false, false⟩ :
            SrcFile)).length =
        (⟨['a', '.', 'p', 'd', 'f'], [50], true, false, false⟩ :
          SrcFile).pages.length :=
  claim_C5_fallback _ _ _ (by decide) (by decide) (by decide)

/-- C7: a source directory with no glob match makes `combine_pdfs` fail
with the no-input error before any processing, and no successful result —
hence no output file — is produced. -/
theorem claim_C7_no_input (dir : List SrcFile) (n : List Char)
    (rmw : Bool) (m : WMethod)
    (hempty : (dir.filter fun f => globPdfMatch f.name) = []) :
    combine_pdfs dir n rmw m = .error .noInput ∧
    ∀ r, combine_pdfs dir n rmw m ≠ .ok r := by
  have hgf : get_pdf_files dir = [] := by
    unfold get_pdf_files
    rw [hempty]
    rfl
  have herr : combine_pdfs dir n rmw m = .error .noInput := by
    unfold combine_pdfs
    simp [hgf]
  refine ⟨herr, fun r hr => ?_⟩
  rw [herr] at hr
  cases hr

/-- Witness for C7: a directory holding only a text file. -/
theorem claim_C7_no_input_witness :
    combine_pdfs [⟨['n', '.', 't', 'x', 't'], [4], true, true, true⟩]
      ['o', 'u', 't'] false .crop = .error .noInput ∧
    ∀ r, combine_pdfs [⟨['n', '.', 't', 'x', 't'], [4], true, true, true⟩]
      ['o', 'u', 't'] false .crop ≠ .ok r :=
  claim_C7_no_input _ _ false .crop (by decide)

/-- C8 is violated by the code: with watermark removal on and a source file
that neither `pdfplumber` nor `PdfReader` can parse, the fallback copies
the original over `temp_bad.pdf`, `PdfReader(processed_file)` raises before
the `os.remove` at line 221 is reached, and the run ends with the temp file
still on disk. -/
theorem claim_C8_temp_leak :
    combine_pdfs [⟨['b', 'a', 'd', '.', 'p', 'd', 'f'], [9], false, false, false⟩]
      ['o', 'u', 't'] true .crop =
      .ok ⟨['o', 'u', 't', '.', 'p', 'd', 'f'], [],
           [['t', 'e', 'm', 'p', '_', 'b', 'a', 'd', '.', 'p', 'd', 'f']]⟩ := by
  rfl

/-- C9 fails as stated: a hidden file whose name ends in `.pdf` is not
returned, because the glob wildcard does not match a leading dot. -/
theorem claim_C9_cex :
    endsWithL ['.', 'h', '.', 'p', 'd', 'f'] pdfSuffix = true ∧
    get_pdf_files [⟨['.', 'h', '.', 'p', 'd', 'f'], [1], true, true, true⟩] = [] := by
  decide

/-- C9 amended: `get_pdf_files` returns exactly the directory entries whose
names do not begin with a dot and end in the case-sensitive lowercase
suffix `.pdf`; uppercase variants such as `.PDF` are excluded, as are
hidden names even when they end in `.pdf`. -/
theorem claim_C9_glob (dir : List SrcFile) (f : SrcFile) :
    (f ∈ get_pdf_files dir ↔ f ∈ dir ∧ globPdfMatch f.name = true) ∧
    globPdfMatch ['a', '.', 'P', 'D', 'F'] = false ∧
    globPdfMatch ['.', 'h', '.', 'p', 'd', 'f'] = false := by
  refine ⟨⟨fun hmem => ?_, fun hin => ?_⟩, by decide, by decide⟩
  · exact List.mem_filter.1 ((List.perm_insertionSort _ _).mem_iff.1 hmem)
  · exact (List.perm_insertionSort _ _).mem_iff.2 (List.mem_filter.2 hin)

/-- Witness for the amended C9: an ordinary `a.pdf` entry is returned. -/
theorem claim_C9_glob_witness :
    (⟨['a', '.', 'p', 'd', 'f'], [1], true, true, true⟩ : SrcFile) ∈
      get_pdf_files [⟨['a', '.', 'p', 'd', 'f'], [1], true, true, true⟩] :=
  (claim_C9_glob [⟨['a', '.', 'p', 'd', 'f'], [1], true, true, true⟩]
    ⟨['a', '.', 'p', 'd', 'f'], [1], true, true, true⟩).1.2 ⟨by decide, by decide⟩

end CombinePdfs
